import Mathlib

/-!
Verification of the winboat repository's Compose-style port mapping engine
(`src/renderer/utils/port.ts`) and the container-lifecycle launch orchestration
(`launchAppWithContainerHandling` in the renderer entry point), as a shallow
embedding in Lean.

JavaScript strings are modelled as `List Char`; JavaScript numbers that can be
`NaN` are modelled as `Option Int` (with `none` playing the role of `NaN`).
Each definition mirrors one function of the source.
-/

namespace Winboat

/-- JavaScript string, modelled as a list of characters. -/
abbrev JSStr := List Char

/-- Coerce a Lean string literal to the `JSStr` model. -/
def jstr (s : String) : JSStr := s.toList

/-- JavaScript number that may be `NaN`: `none` models `NaN`. -/
abbrev JSNum := Option Int

/-- JavaScript `String.prototype.split` with a single-character separator:
splits at every occurrence of the separator, keeping empty pieces
(`"a::b".split(":") = ["a","","b"]`, `"".split(":") = [""]`). -/
def jsSplit (sep : Char) : JSStr → List JSStr
  | [] => [[]]
  | c :: cs =>
    let r := jsSplit sep cs
    if c = sep then [] :: r
    else
      match r with
      | [] => [[c]]
      | s :: ss => (c :: s) :: ss

/-- Join a list of pieces with a separator character (left inverse of `jsSplit`). -/
def joinSep (sep : Char) : List JSStr → JSStr
  | [] => []
  | [a] => a
  | a :: b :: rest => a ++ sep :: joinSep sep (b :: rest)

/-- JavaScript `arr.at(-k)` for a list of strings (with the source's non-null
assertion modelled by defaulting to the empty string, which is never hit on
the paths the source takes). -/
def jsAtNeg (l : List JSStr) (k : Nat) : JSStr := (l.get? (l.length - k)).getD []

/-- First index at which `sub` occurs in `s` (`none` if it does not occur);
the index-producing core of JavaScript `String.prototype.indexOf`. -/
def strFindIdx (sub : JSStr) : JSStr → Option Nat
  | [] => if sub.isPrefixOf ([] : JSStr) then some 0 else none
  | c :: cs =>
    if sub.isPrefixOf (c :: cs) then some 0
    else (strFindIdx sub cs).map (· + 1)

/-- JavaScript `s.indexOf(sub)`: first occurrence index, `-1` when absent. -/
def jsIndexOf (s sub : JSStr) : Int :=
  match strFindIdx sub s with
  | some i => (i : Int)
  | none => -1

/-- JavaScript `String.prototype.substring(a, b)`: each argument is clamped to
`[0, length]`, and the two are swapped when `a > b`. -/
def jsSubstring (s : JSStr) (a b : Int) : JSStr :=
  let n : Int := s.length
  let a' : Nat := (max 0 (min a n)).toNat
  let b' : Nat := (max 0 (min b n)).toNat
  (s.take (max a' b')).drop (min a' b')

/-- Decimal digit test (the character class used by the numeric-token parsing). -/
def jsIsDigit (c : Char) : Bool :=
  decide (c ∈ [ '0', '1', '2', '3', '4', '5', '6', '7', '8', '9'])

/-- Hexadecimal digit test. -/
def jsIsHexDigit (c : Char) : Bool :=
  jsIsDigit c || decide (c ∈ [ 'a', 'b', 'c', 'd', 'e', 'f', 'A', 'B', 'C', 'D', 'E', 'F'])

/-- Numeric value of a decimal digit character. -/
def jsDigitVal (c : Char) : Nat := c.toNat - 48

/-- Numeric value of a hexadecimal digit character. -/
def jsHexVal (c : Char) : Nat :=
  if jsIsDigit c then c.toNat - 48
  else if c.toNat ≥ 97 then c.toNat - 87
  else c.toNat - 55

/-- Value of a string of decimal digits. -/
def digitsToNat (l : JSStr) : Nat := l.foldl (fun a c => a * 10 + jsDigitVal c) 0

/-- Value of a string of hexadecimal digits. -/
def hexToNat (l : JSStr) : Nat := l.foldl (fun a c => a * 16 + jsHexVal c) 0

/-- The decimal digit character for a value `0 ≤ d ≤ 9`. -/
def digitChar : Nat → Char
  | 0 => '0' | 1 => '1' | 2 => '2' | 3 => '3' | 4 => '4'
  | 5 => '5' | 6 => '6' | 7 => '7' | 8 => '8' | 9 => '9'
  | _ => '*'

/-- Decimal digit string of a natural number, with explicit fuel so that the
definition is structurally recursive (the fuel is always sufficient). -/
def natDigitsAux : Nat → Nat → JSStr
  | 0, _ => []
  | fuel + 1, n =>
    if n < 10 then [digitChar n]
    else natDigitsAux fuel (n / 10) ++ [digitChar (n % 10)]

/-- Decimal digit string of a natural number (how JavaScript prints a
non-negative integer). -/
def natDigits (n : Nat) : JSStr := natDigitsAux (n + 1) n

/-- Longest leading run of decimal digits, as a number (`none` when empty);
the decimal case of `Number.parseInt`. -/
def decDigitsPart (s : JSStr) : Option Nat :=
  let ds := s.takeWhile jsIsDigit
  if ds = [] then none else some (digitsToNat ds)

/-- Longest leading run of hexadecimal digits, as a number (`none` when empty);
the `0x` case of `Number.parseInt`. -/
def hexDigitsPart (s : JSStr) : Option Nat :=
  let ds := s.takeWhile jsIsHexDigit
  if ds = [] then none else some (hexToNat ds)

/-- The unsigned part of `Number.parseInt`: a `0x`/`0X` prefix selects
hexadecimal, otherwise the longest decimal-digit prefix is taken. -/
def jsParseNatPart (s : JSStr) : Option Nat :=
  match s with
  | c0 :: c1 :: r =>
    if c0 = '0' ∧ (c1 = 'x' ∨ c1 = 'X') then hexDigitsPart r else decDigitsPart s
  | _ => decDigitsPart s

/-- JavaScript `Number.parseInt(s)` (radix omitted): leading whitespace is
skipped, an optional sign is read, then the longest valid digit prefix;
`none` models the `NaN` result. -/
def jsParseInt (s : JSStr) : JSNum :=
  let s1 := s.dropWhile Char.isWhitespace
  match s1 with
  | [] => none
  | c :: r =>
    if c = '-' then (jsParseNatPart r).map (fun v => -(v : Int))
    else if c = '+' then (jsParseNatPart r).map (fun v => (v : Int))
    else (jsParseNatPart (c :: r)).map (fun v => (v : Int))

/-- How JavaScript string interpolation prints a number (`NaN` included). -/
def jsNumToStr (v : JSNum) : JSStr :=
  match v with
  | none => jstr "NaN"
  | some i => if i < 0 then '-' :: natDigits i.natAbs else natDigits i.toNat

/-- Node `net.isIPv4`: exactly four dot-separated decimal octets, each with no
leading zero and value at most 255. -/
def ipv4Octet (t : JSStr) : Bool :=
  t ≠ [] && t.length ≤ 3 && t.all jsIsDigit &&
    (t.length = 1 || t.head? ≠ some '0') && digitsToNat t ≤ 255

/-- Node `net.isIPv4` on the textual form of an address. -/
def isIPv4 (s : JSStr) : Bool :=
  match jsSplit '.' s with
  | [a, b, c, d] => ipv4Octet a && ipv4Octet b && ipv4Octet c && ipv4Octet d
  | _ => false

/-- A 1-4 character group of hexadecimal digits. -/
def hexGroup (t : JSStr) : Bool := t ≠ [] && t.length ≤ 4 && t.all jsIsHexDigit

/-- Number of (possibly overlapping) occurrences of `sub` in `s`. -/
def countSub (sub : JSStr) : JSStr → Nat
  | [] => if sub.isPrefixOf ([] : JSStr) then 1 else 0
  | c :: cs => (if sub.isPrefixOf (c :: cs) then 1 else 0) + countSub sub cs

/-- Group count of a colon-separated tail of an IPv6 literal, where the last
group may be an embedded IPv4 address (which counts as two 16-bit groups);
`none` when some group is malformed. -/
def ipv6Groups (parts : List JSStr) : Option Nat :=
  match parts with
  | [] => some 0
  | [t] => if hexGroup t then some 1 else if isIPv4 t then some 2 else none
  | t :: rest => if hexGroup t then (ipv6Groups rest).map (· + 1) else none

/-- Group count of the part of an IPv6 literal before the `::` compression:
plain hexadecimal groups only. -/
def ipv6GroupsLeft (parts : List JSStr) : Option Nat :=
  match parts with
  | [] => some 0
  | t :: rest => if hexGroup t then (ipv6GroupsLeft rest).map (· + 1) else none

/-- Node `net.isIPv6` on the textual form of an address: either eight groups
with no `::` compression (an embedded IPv4 tail counting as two), or a single
`::` with at most seven explicit groups around it. -/
def isIPv6 (s : JSStr) : Bool :=
  match strFindIdx (jstr "::") s with
  | none =>
    match ipv6Groups (jsSplit ':' s) with
    | some n => n = 8
    | none => false
  | some i =>
    countSub (jstr "::") s = 1 &&
    (let left := s.take i
     let right := s.drop (i + 2)
     let leftGroups := if left = [] then some 0 else ipv6GroupsLeft (jsSplit ':' left)
     let rightGroups := if right = [] then some 0 else ipv6Groups (jsSplit ':' right)
     match leftGroups, rightGroups with
     | some a, some b => a + b ≤ 7
     | _, _ => false)

/-! ## Port entries (`ComposePortEntry` and `Range` from `port.ts`) -/

/-- The transport protocol of a port entry (`PortEntryProtocol` in the source):
only `"tcp"` and `"udp"` are representable. -/
inductive Protocol
  | tcp
  | udp
deriving DecidableEq

/-- Textual form of a protocol. -/
def protoStr : Protocol → JSStr
  | .tcp => jstr "tcp"
  | .udp => jstr "udp"

/-- A host or guest endpoint of a port entry: either a JavaScript number
(`Port`, possibly the `NaN` sentinel) or a `Range` object with `start` and
`end` fields (each again a JavaScript number). -/
inductive PortVal
  | num : JSNum → PortVal
  | range : JSNum → JSNum → PortVal
deriving DecidableEq

/-- `Range.toString` / number printing for an endpoint value. -/
def portValStr : PortVal → JSStr
  | .num v => jsNumToStr v
  | .range a b => jsNumToStr a ++ '-' :: jsNumToStr b

/-- `new Range(token)`: split the token on `-` and `parseInt` the first two
pieces (a missing piece parses to the `NaN` sentinel). -/
def rangeOfToken (token : JSStr) : PortVal :=
  let splitToken := jsSplit '-' token
  .range (jsParseInt (splitToken.getD 0 [])) (jsParseInt (splitToken.getD 1 []))

/-- `ComposePortEntry.parsePortOrRange`: a token containing a literal `-` is a
range, otherwise it is `parseInt`ed as a single port. -/
def parsePortOrRange (token : JSStr) : PortVal :=
  if '-' ∈ token then rangeOfToken token else .num (jsParseInt token)

/-- Which part of the mapping `parsePort` extracts (`PortType` in the source). -/
inductive PortType
  | HOST
  | CONTAINER
deriving DecidableEq

/-- `ComposePortEntry.parsePort`: split the entry on `:`; a single field is the
guest alone; otherwise the second-to-last field is the host and the last field
(before any `/protocol` suffix) is the guest. -/
def parsePort (type : PortType) (entry : JSStr) : PortVal :=
  let portEntry := jsSplit ':' entry
  let guest := (jsSplit '/' (jsAtNeg portEntry 1)).headD []
  if portEntry.length = 1 then parsePortOrRange guest
  else
    match type with
    | .HOST => parsePortOrRange (jsAtNeg portEntry 2)
    | .CONTAINER => parsePortOrRange guest

/-- `ComposePortEntry.parseProtocol`: the segment after the first `/`, when
present and non-empty, must be `tcp` or `udp`; anything else is a fatal format
error; absent (or empty, which is falsy) defaults to `tcp`. -/
def parseProtocol (entry : JSStr) : Except JSStr Protocol :=
  match (jsSplit '/' entry).get? 1 with
  | none => .ok .tcp
  | some p =>
    if p = [] then .ok .tcp
    else if p = jstr "tcp" then .ok .tcp
    else if p = jstr "udp" then .ok .udp
    else .error (jstr "Protocol '" ++ p ++ jstr "' is not supported by the compose spec.")

/-- `ComposePortEntry.checkValidIP`: fatal error unless the literal passes
Node's `isIPv4` or `isIPv6`. -/
def checkValidIP (ip entry : JSStr) : Except JSStr JSStr :=
  if !isIPv4 ip && !isIPv6 ip then
    .error (jstr "Invalid compose entry: " ++ entry ++ jstr ", IP: " ++ ip)
  else .ok ip

/-- `ComposePortEntry.parseIP`: with fewer than two colons the default
`0.0.0.0` is returned; otherwise the host IP is the prefix of the entry before
the first occurrence of the host-port token (shifting one field left when the
host port is empty), with square brackets stripped. An empty prefix models the
source's `rawIP[0].startsWith` throwing a `TypeError` on `undefined`. -/
def parseIP (entry : JSStr) : Except JSStr JSStr :=
  let parts := jsSplit ':' entry
  if parts.length < 3 then .ok (jstr "0.0.0.0")
  else
    let lp0 := jsAtNeg parts 2
    let lastPort := if lp0.length = 0 then jsAtNeg parts 1 else lp0
    let colonNum : Int := if lp0.length = 0 then 2 else 1
    let hostPortLocation : Int := jsIndexOf entry lastPort - colonNum
    let rawIP := jsSubstring entry 0 hostPortLocation
    match rawIP with
    | [] => .error (jstr "TypeError: cannot read properties of undefined")
    | c :: _ =>
      if c ≠ '[' then checkValidIP rawIP entry
      else checkValidIP (jsSubstring rawIP 1 ((rawIP.length : Int) - 1)) entry

/-- A parsed compose port mapping rule (`ComposePortEntry` in the source). -/
structure ComposePortEntry where
  hostIP : JSStr
  host : PortVal
  container : PortVal
  protocol : Protocol
deriving DecidableEq

/-- Options accepted by the numeric `ComposePortEntry` constructor and by
`setShortPortMapping` (`PortEntryOptions` in the source: `hostIP` optional,
`protocol` required). -/
structure PortEntryOptions where
  hostIP : Option JSStr
  protocol : Protocol
deriving DecidableEq

/-- JavaScript falsiness of a number: `0` and `NaN` are falsy. -/
def jsNumFalsy (v : JSNum) : Bool :=
  match v with
  | none => true
  | some i => i = 0

/-- The string-parsing `ComposePortEntry` constructor (`new
ComposePortEntry(entry)`): `parseIP`, `parsePort` for both ends, and
`parseProtocol`; IP and protocol errors are fatal. -/
def ComposePortEntry.parse (entry : JSStr) : Except JSStr ComposePortEntry := do
  let hostIP ← parseIP entry
  let host := parsePort .HOST entry
  let container := parsePort .CONTAINER entry
  let protocol ← parseProtocol entry
  return { hostIP := hostIP, host := host, container := container, protocol := protocol }

/-- The numeric `ComposePortEntry` constructor overload (`new
ComposePortEntry(hostPort, guestPort, options?)`): the implementation throws
`Invalid constructor call` when the guest port is falsy or the options
argument is absent; otherwise `hostIP` defaults to `0.0.0.0`. -/
def ComposePortEntry.ofPorts (hostPort guestPort : JSNum)
    (options : Option PortEntryOptions) : Except JSStr ComposePortEntry :=
  match options with
  | none => .error (jstr "Invalid constructor call")
  | some o =>
    if jsNumFalsy guestPort then .error (jstr "Invalid constructor call")
    else .ok { hostIP := o.hostIP.getD (jstr "0.0.0.0"), host := .num hostPort,
               container := .num guestPort, protocol := o.protocol }

/-- The `entry` getter: render the canonical four-part form
`hostIP:host:container/protocol`, with a host that is the `NaN` sentinel
rendered as an empty token (podman's empty-host publish syntax). -/
def ComposePortEntry.render (e : ComposePortEntry) : JSStr :=
  let host : JSStr :=
    match e.host with
    | .num none => []
    | v => portValStr v
  e.hostIP ++ ':' :: host ++ ':' :: portValStr e.container ++ '/' :: protoStr e.protocol

/-! ## The port mapper (`ComposePortMapper` from `port.ts`)

The mapper's short-form collection is its `List ComposePortEntry`; the
long-form entries are an opaque passthrough and play no role in the claims. -/

/-- A `guestPort` argument of the mapper operations: the source accepts
`number | string` and normalises strings with `Number.parseInt`. -/
inductive PortArg
  | str : JSStr → PortArg
  | num : JSNum → PortArg
deriving DecidableEq

/-- The `number | string → number` normalisation the mapper applies to its
arguments. -/
def coercePort : PortArg → JSNum
  | .str s => jsParseInt s
  | .num n => n

/-- JavaScript strict equality `===` between two numbers (`NaN` is not equal
to anything, itself included). -/
def jsStrictEq (a b : JSNum) : Bool :=
  match a, b with
  | some x, some y => x = y
  | _, _ => false

/-- The predicate of `findGuestPortIndex`'s `findIndex` call: the entry's
`container` is a concrete number (`typeof === "number"`, which includes the
`NaN` sentinel) strictly equal to the guest port, with matching protocol. -/
def entryMatches (e : ComposePortEntry) (guestPort : JSNum) (protocol : Protocol) : Bool :=
  match e.container with
  | .num v => jsStrictEq v guestPort && e.protocol = protocol
  | .range _ _ => false

/-- JavaScript `Array.prototype.findIndex` with `-1` mapped to `undefined`
(`none`), as `findGuestPortIndex` does. -/
def jsFindIndex (p : α → Bool) : List α → Option Nat
  | [] => none
  | a :: l => if p a then some 0 else (jsFindIndex p l).map (· + 1)

/-- `ComposePortMapper.findGuestPortIndex`: index of the first short-form entry
whose concrete guest port strictly equals the argument and whose protocol
matches; `undefined` when there is none. -/
def findGuestPortIndex (shortPorts : List ComposePortEntry) (guestPort : PortArg)
    (protocol : Protocol) : Option Nat :=
  jsFindIndex (fun e => entryMatches e (coercePort guestPort) protocol) shortPorts

/-- Truthiness of the `number | undefined` index (`!!idx`): `undefined` and
`0` are both falsy. -/
def jsIdxTruthy (idx : Option Nat) : Bool :=
  match idx with
  | none => false
  | some 0 => false
  | some _ => true

/-- `ComposePortMapper.getShortPortMapping`: returns `undefined` when
`!mappingIdx` — which is the case both for a missing mapping and for a
mapping found at index `0` — and the entry at the index otherwise. -/
def getShortPortMapping (shortPorts : List ComposePortEntry) (guestPort : PortArg)
    (protocol : Protocol) : Option ComposePortEntry :=
  match findGuestPortIndex shortPorts guestPort protocol with
  | none => none
  | some idx => if idx = 0 then none else shortPorts.get? idx

/-- `ComposePortMapper.hasShortPortMapping`: `!!this.findGuestPortIndex(...)`. -/
def hasShortPortMapping (shortPorts : List ComposePortEntry) (guestPort : PortArg)
    (protocol : Protocol) : Bool :=
  jsIdxTruthy (findGuestPortIndex shortPorts (.num (coercePort guestPort)) protocol)

/-- A `host` argument of `setShortPortMapping`: a port number, a numeric
string, or a `Range`. -/
inductive HostArg
  | str : JSStr → HostArg
  | num : JSNum → HostArg
  | range : JSNum → JSNum → HostArg
deriving DecidableEq

/-- JavaScript array element assignment `arr[i] = v` for the indices the
mapper produces (`i ≤ arr.length`): in-place overwrite below the length,
append at the length. -/
def jsArraySet (l : List α) (i : Nat) (v : α) : List α :=
  if i < l.length then l.set i v else l ++ [v]

/-- `ComposePortMapper.setShortPortMapping`: normalise string arguments,
compute the insertion index (the existing mapping's index, or the end of the
collection), and store a new `ComposePortEntry` there — via the numeric
constructor for a concrete host, or by rendering and re-parsing a compose
string for a `Range` host. -/
def setShortPortMapping (shortPorts : List ComposePortEntry) (guestPort : PortArg)
    (host : HostArg) (options : Option PortEntryOptions) :
    Except JSStr (List ComposePortEntry) :=
  let hostN : JSNum ⊕ (JSNum × JSNum) :=
    match host with
    | .str s => .inl (jsParseInt s)
    | .num n => .inl n
    | .range a b => .inr (a, b)
  let gN := coercePort guestPort
  let insertAt :=
    (findGuestPortIndex shortPorts (.num gN) ((options.map (·.protocol)).getD .tcp)).getD
      shortPorts.length
  match hostN with
  | .inl h =>
    match ComposePortEntry.ofPorts h gN options with
    | .error e => .error e
    | .ok entry => .ok (jsArraySet shortPorts insertAt entry)
  | .inr (a, b) =>
    let str := ((options.map (·.hostIP)).getD none).getD (jstr "0.0.0.0") ++
      ':' :: portValStr (.range a b) ++ ':' :: jsNumToStr gN ++
      '/' :: protoStr ((options.map (·.protocol)).getD .tcp)
    match ComposePortEntry.parse str with
    | .error e => .error e
    | .ok entry => .ok (jsArraySet shortPorts insertAt entry)

/-- The entry that `setShortPortMapping` stores for a concrete host port with
explicit options. -/
def mkSetEntry (hv gv : Int) (o : PortEntryOptions) : ComposePortEntry :=
  { hostIP := o.hostIP.getD (jstr "0.0.0.0"), host := .num (some hv),
    container := .num (some gv), protocol := o.protocol }

/-- The `composeFormat` getter: every short-form entry rendered, in collection
order (long-form entries are not serialised by the source). -/
def composeFormat (shortPorts : List ComposePortEntry) : List JSStr :=
  shortPorts.map ComposePortEntry.render

/-! ## `ComposePortMapper.isPortOpen`

The probe creates a server, installs `once("error")` and `once("listening")`
handlers, and calls `listen(port)`. The promise machinery is embedded as a
pure function over the sequence of server events: the first `listening` event
resolves `true`; the first `error` event resolves `false` only when its code
is `EADDRINUSE` (each handler fires at most once; `reject` is never called). -/

/-- An event emitted by the transient server of `isPortOpen`. -/
inductive ServerEvent
  | listening
  | error : JSStr → ServerEvent
deriving DecidableEq

/-- How a JavaScript promise can settle. -/
inductive PromiseSettle
  | resolved : Bool → PromiseSettle
  | rejected : PromiseSettle
deriving DecidableEq

/-- Run the two `once` handlers of `isPortOpen` over the server's event
sequence; `none` means the returned promise never settles. The two boolean
flags record whether each `once` handler has already been consumed. -/
def isPortOpenSettle : List ServerEvent → Bool → Bool → Option PromiseSettle
  | [], _, _ => none
  | .listening :: rest, errUsed, lisUsed =>
    if lisUsed then isPortOpenSettle rest errUsed lisUsed
    else some (.resolved true)
  | .error c :: rest, errUsed, lisUsed =>
    if errUsed then isPortOpenSettle rest errUsed lisUsed
    else if c = jstr "EADDRINUSE" then some (.resolved false)
    else isPortOpenSettle rest true lisUsed

/-- Outcome of the promise returned by `isPortOpen`, given the server's event
sequence. -/
def isPortOpenOutcome (events : List ServerEvent) : Option PromiseSettle :=
  isPortOpenSettle events false false

/-! ## The launch orchestration (`launchAppWithContainerHandling`)

The handler drives: resume the container (`unpause` for a paused container,
`start` otherwise), poll `isOnline` once per second for at most 60 attempts,
wait up to 30 more attempts for the app manager/port readiness, then resolve
the guest API port, enumerate apps, and dispatch the launch (fire-and-forget,
with a fixed grace delay before `completeLaunch`). The environment record
below carries the collaborator behaviour the handler observes; time is the
number of 1-second sleeps performed so far. -/

/-- Modelled from the spec: the `ContainerStatus` enumeration (the `winboat`
library module that declares it is not among these sources; §3 of the
specification lists its values, and the handler distinguishes exactly
`running`, `paused`, and everything else). -/
inductive ContainerStatus
  | stopped
  | starting
  | running
  | pausing
  | paused
  | unpausing
  | error
deriving DecidableEq

/-- An installed guest application (`WinApp` in the source), as far as the
handler inspects it. -/
structure WinApp where
  Name : JSStr
  Path : JSStr
deriving DecidableEq

/-- The collaborator behaviour observed by one launch call. `onlineAt t` is
the value of `winboat.isOnline.value` after `t` one-second sleeps;
`unpauseOk`/`startOk` tell whether the runtime call returns or throws;
`hostPort` and `apps` are the results (or thrown errors) of
`winboat.getHostPort` and `appMgr.getApps`; `findApp` is the `findAppFn`
matcher passed by the caller. -/
structure LaunchEnv where
  status : ContainerStatus
  unpauseOk : Bool
  startOk : Bool
  onlineAt : Nat → Bool
  appMgrPresent : Bool
  hostPort : Except Unit Nat
  apps : Except Unit (List WinApp)
  findApp : List WinApp → Option WinApp

/-- The externally visible calls a launch makes, in order. -/
inductive LaunchEvent
  | calledStart
  | calledUnpause
  | enumeratedApps
  | dispatchedLaunch
deriving DecidableEq

/-- Terminal outcome of a launch call: `completeLaunch` or `cancelLaunch`. -/
inductive LaunchOutcome
  | completed
  | cancelled
deriving DecidableEq

/-- One `while (!isOnline && attempts < max)` polling loop: starting at time
`t` with `fuel` remaining attempts, return the time at which the loop exits
(either `isOnline` became true or the attempts were exhausted). -/
def waitLoop (online : Nat → Bool) : Nat → Nat → Nat
  | t, 0 => t
  | t, fuel + 1 => if online t then t else waitLoop online (t + 1) fuel

/-- The `launching-app` section of the handler: resolve the host port,
enumerate apps through the (non-null-asserted) app manager, match the target,
and dispatch the launch; every thrown error is caught and cancels the call. -/
def launchingApp (env : LaunchEnv) : LaunchOutcome × List LaunchEvent :=
  match env.hostPort with
  | .error _ => (.cancelled, [])
  | .ok _ =>
    if !env.appMgrPresent then (.cancelled, [])
    else
      match env.apps with
      | .error _ => (.cancelled, [.enumeratedApps])
      | .ok apps =>
        match env.findApp apps with
        | some _ => (.completed, [.enumeratedApps, .dispatchedLaunch])
        | none => (.cancelled, [.enumeratedApps])

/-- The `if (!winboat.appMgr || !winboat.isOnline.value)` guard block at time
`t`: when entered, poll for at most 30 further attempts and cancel if still
offline; returns the time after the block, or `none` for cancellation. -/
def guardBlock (env : LaunchEnv) (t : Nat) : Option Nat :=
  if env.appMgrPresent && env.onlineAt t then some t
  else
    let t1 := waitLoop env.onlineAt t 30
    if env.onlineAt t1 then some t1 else none

/-- The part of the handler after the container is running: readiness guard
block, then the launching-app section. -/
def launchFromReady (env : LaunchEnv) (t : Nat) : LaunchOutcome × List LaunchEvent :=
  match guardBlock env t with
  | none => (.cancelled, [])
  | some _ => launchingApp env

/-- `launchAppWithContainerHandling`: when the container is not running,
resume it (`unpause` if paused, `start` otherwise; a thrown error cancels),
then poll reachability for at most 60 attempts (cancelling on exhaustion),
then continue with the ready-path. Returns the terminal outcome and the
ordered external calls made. -/
def launchRun (env : LaunchEnv) : LaunchOutcome × List LaunchEvent :=
  if env.status = .running then launchFromReady env 0
  else
    let ev := if env.status = .paused then LaunchEvent.calledUnpause else LaunchEvent.calledStart
    let ok := if env.status = .paused then env.unpauseOk else env.startOk
    if ok then
      let t := waitLoop env.onlineAt 0 60
      if env.onlineAt t then
        let rest := launchFromReady env t
        (rest.1, ev :: rest.2)
      else (.cancelled, [ev])
    else (.cancelled, [ev])

/-! ## Spec-side definitions

These definitions follow the specification's words (not the source); they are
used to state claims that compare the code against the spec's data model and
grammar. -/

/-- Modelled from the spec: the data-model well-formedness of one endpoint —
a concrete port is a positive integer in 1–65535, a Range has
`start ≤ end` with both in bounds; the empty/undefined sentinel is the
spec's "let the runtime pick" host value. -/
def specEndpointOKb : PortVal → Bool
  | .num none => true
  | .num (some i) => 1 ≤ i && i ≤ 65535
  | .range (some a) (some b) => 1 ≤ a && a ≤ b && b ≤ 65535
  | .range _ _ => false

/-- Modelled from the spec: a canonical decimal port token (positive integer
1–65535, no leading zeros). -/
def specCanonicalPortNum (t : JSStr) : Bool :=
  t ≠ [] && t.all jsIsDigit && t.head? ≠ some '0' &&
    1 ≤ digitsToNat t && digitsToNat t ≤ 65535

/-- Modelled from the spec: a host/guest token — a single port or a
`start-end` range with `start ≤ end`. -/
def specValidPortTok (t : JSStr) : Bool :=
  match jsSplit '-' t with
  | [a] => specCanonicalPortNum a
  | [a, b] => specCanonicalPortNum a && specCanonicalPortNum b && digitsToNat a ≤ digitsToNat b
  | _ => false

/-- Modelled from the spec: a host-IP token — a valid IPv4 or IPv6 literal,
optionally bracket-enclosed (`[::1]`). -/
def specValidIPTok (t : JSStr) : Bool :=
  isIPv4 t || isIPv6 t ||
    (t.head? = some '[' && t.getLast? = some ']' && isIPv6 ((t.drop 1).dropLast))

/-- Modelled from the spec: a syntactically valid port-entry text with all
four parts present (`hostIP:host:guest/protocol` per the §4.1 grammar). -/
def specValidFourPartEntry (s : JSStr) : Bool :=
  match jsSplit '/' s with
  | [front, proto] =>
    (proto = jstr "tcp" || proto = jstr "udp") &&
      (let parts := jsSplit ':' front
       3 ≤ parts.length &&
         specValidPortTok (jsAtNeg parts 1) &&
         specValidPortTok (jsAtNeg parts 2) &&
         specValidIPTok (joinSep ':' parts.dropLast.dropLast))
  | _ => false

/-- A structured spec-grammar port token (single port or range), used to
quantify over all well-formed host/guest tokens. -/
inductive SpecPortTok
  | single : Nat → SpecPortTok
  | rangeTok : Nat → Nat → SpecPortTok
deriving DecidableEq

/-- The text of a structured token. -/
def SpecPortTok.str : SpecPortTok → JSStr
  | .single n => natDigits n
  | .rangeTok a b => natDigits a ++ '-' :: natDigits b

/-- The spec's bounds on a structured token. -/
def SpecPortTok.ok : SpecPortTok → Prop
  | .single n => 1 ≤ n ∧ n ≤ 65535
  | .rangeTok a b => 1 ≤ a ∧ a ≤ b ∧ b ≤ 65535

/-- The endpoint value a structured token denotes. -/
def SpecPortTok.val : SpecPortTok → PortVal
  | .single n => .num (some (n : Int))
  | .rangeTok a b => .range (some (a : Int)) (some (b : Int))

/-! ## Claims -/

/-- C10: `isPortOpen` resolves `true` when the transient listening socket
binds successfully, resolves `false` when the bind fails with `EADDRINUSE`,
and for any other bind error the returned promise neither resolves nor
rejects. -/
theorem c10_isPortOpen_outcomes :
    isPortOpenOutcome [.listening] = some (.resolved true) ∧
    isPortOpenOutcome [.error (jstr "EADDRINUSE")] = some (.resolved false) ∧
    ∀ c : JSStr, c ≠ jstr "EADDRINUSE" → isPortOpenOutcome [.error c] = none := by
  refine ⟨rfl, rfl, fun c hc => ?_⟩
  simp [isPortOpenOutcome, isPortOpenSettle, hc]

/-- C10 witness: a concrete non-`EADDRINUSE` bind error (`EACCES`) leaves the
promise unsettled. -/
theorem c10_witness : isPortOpenOutcome [.error (jstr "EACCES")] = none :=
  c10_isPortOpen_outcomes.2.2 (jstr "EACCES") (by decide)

/-- C8: parsing `0.0.0.0::80/tcp` (empty host segment) yields the `NaN`
sentinel for the host — not the port `0` — and rendering the entry emits the
empty token in the host position, reproducing the input. -/
theorem c8_dynamic_host_port :
    (ComposePortEntry.parse (jstr "0.0.0.0::80/tcp")).map ComposePortEntry.host =
      .ok (.num none) ∧
    (ComposePortEntry.parse (jstr "0.0.0.0::80/tcp")).map ComposePortEntry.render =
      .ok (jstr "0.0.0.0::80/tcp") := by
  exact ⟨rfl, rfl⟩

/-- C4: the claim says `setMapping(guestPort, host, options?)` never raises
and defaults protocol/hostIP when options are omitted; the code instead
throws `Invalid constructor call` from the numeric `ComposePortEntry`
constructor whenever options are omitted and the host argument is a concrete
port (or numeric string), for every mapper state and every argument. -/
theorem c4_setMapping_throws_without_options
    (shortPorts : List ComposePortEntry) (g : PortArg) (h : JSNum) (s : JSStr) :
    setShortPortMapping shortPorts g (.num h) none = .error (jstr "Invalid constructor call") ∧
    setShortPortMapping shortPorts g (.str s) none = .error (jstr "Invalid constructor call") := by
  constructor <;> simp [setShortPortMapping, ComposePortEntry.ofPorts]

/-- C9 counterexample: the out-of-bounds host token `99999` still parses to a
valid entry, violating the claim that endpoints of successfully parsed
entries satisfy the 1–65535 data-model bounds. -/
theorem c9_counterexample :
    (ComposePortEntry.parse (jstr "0.0.0.0:99999:80/tcp")).map
        (fun e => specEndpointOKb e.host) = .ok false := by
  rfl

/-- C9 amended: the parser performs no bounds validation on endpoints — an
out-of-range port (e.g. 99999 or 70000) and a range with `start > end`
(e.g. `90-10`) are all accepted and stored as parsed. -/
theorem c9_no_bounds_validation :
    (ComposePortEntry.parse (jstr "0.0.0.0:99999:70000/tcp")).map
        (fun e => (e.host, e.container)) = .ok (.num (some 99999), .num (some 70000)) ∧
    (ComposePortEntry.parse (jstr "0.0.0.0:90-10:80/tcp")).map ComposePortEntry.host =
      .ok (.range (some 90) (some 10)) := by
  exact ⟨rfl, rfl⟩

/-! ### Facts about `jsFindIndex` (JavaScript `findIndex`) -/

theorem jsFindIndex_eq_none {p : α → Bool} :
    ∀ {l : List α}, jsFindIndex p l = none ↔ ∀ a ∈ l, p a = false := by
  intro l
  induction l with
  | nil => simp [jsFindIndex]
  | cons a t ih =>
    by_cases hpa : p a
    · simp [jsFindIndex, hpa]
    · simp [jsFindIndex, hpa, ih]

theorem jsFindIndex_some_get {p : α → Bool} :
    ∀ {l : List α} {i : Nat}, jsFindIndex p l = some i →
      ∃ a, l.get? i = some a ∧ p a = true := by
  intro l
  induction l with
  | nil => intro i h; simp [jsFindIndex] at h
  | cons a t ih =>
    intro i h
    by_cases hpa : p a
    · simp [jsFindIndex, hpa] at h
      exact ⟨a, by simp [← h], hpa⟩
    · simp [jsFindIndex, hpa] at h
      obtain ⟨j, hj, rfl⟩ := h
      obtain ⟨b, hb, hpb⟩ := ih hj
      exact ⟨b, by simpa using hb, hpb⟩

theorem jsFindIndex_some_lt {p : α → Bool} {l : List α} {i : Nat}
    (h : jsFindIndex p l = some i) : i < l.length := by
  obtain ⟨a, ha, _⟩ := jsFindIndex_some_get h
  exact (List.get?_eq_some.mp ha).1

theorem jsFindIndex_first {p : α → Bool} :
    ∀ {l : List α} {i : Nat}, jsFindIndex p l = some i →
      ∀ j a, j < i → l.get? j = some a → p a = false := by
  intro l
  induction l with
  | nil => intro i h; simp [jsFindIndex] at h
  | cons b t ih =>
    intro i h j a hj hget
    by_cases hpb : p b
    · simp [jsFindIndex, hpb] at h
      omega
    · simp [jsFindIndex, hpb] at h
      obtain ⟨i', hi', rfl⟩ := h
      match j with
      | 0 =>
        simp at hget
        simpa [← hget] using hpb
      | j' + 1 =>
        exact ih hi' j' a (by omega) (by simpa using hget)

theorem jsFindIndex_of_mem {p : α → Bool} {l : List α} {a : α}
    (ha : a ∈ l) (hpa : p a = true) : ∃ i, jsFindIndex p l = some i := by
  cases h : jsFindIndex p l with
  | some i => exact ⟨i, rfl⟩
  | none => exact absurd hpa (by simp [jsFindIndex_eq_none.mp h a ha])

/-- `findGuestPortIndex` normalises its argument, so pre-normalising is a
no-op. -/
theorem findGuestPortIndex_coerce (ports : List ComposePortEntry) (g : PortArg)
    (p : Protocol) :
    findGuestPortIndex ports (.num (coercePort g)) p = findGuestPortIndex ports g p := by
  cases g <;> rfl

/-- C7: `hasMapping(guestPort, protocol)` is true exactly when
`lookup(guestPort, protocol)` returns an entry; in particular both report
absence when the first matching entry sits at collection index 0 (the falsy
index). -/
theorem c7_hasMapping_iff_lookup (ports : List ComposePortEntry) (g : PortArg)
    (p : Protocol) :
    (hasShortPortMapping ports g p = true ↔
      ∃ e, getShortPortMapping ports g p = some e) ∧
    (findGuestPortIndex ports g p = some 0 →
      hasShortPortMapping ports g p = false ∧ getShortPortMapping ports g p = none) := by
  unfold hasShortPortMapping getShortPortMapping
  rw [findGuestPortIndex_coerce]
  cases hidx : findGuestPortIndex ports g p with
  | none => simp [jsIdxTruthy]
  | some i =>
    match i with
    | 0 => simp [jsIdxTruthy]
    | i' + 1 =>
      obtain ⟨a, ha, _⟩ :=
        jsFindIndex_some_get (p := fun e => entryMatches e (coercePort g) p) hidx
      refine ⟨?_, fun h0 => by simp at h0⟩
      simp only [jsIdxTruthy, if_neg (Nat.succ_ne_zero i')]
      simp only [true_iff]
      exact ⟨a, by simpa using ha⟩

/-- C7 witness: on a mapper whose only matching entry is at index 0, both
operations report absence. -/
theorem c7_witness :
    hasShortPortMapping [⟨jstr "0.0.0.0", .num (some 8080), .num (some 80), .tcp⟩]
        (.num (some 80)) .tcp = false ∧
    getShortPortMapping [⟨jstr "0.0.0.0", .num (some 8080), .num (some 80), .tcp⟩]
        (.num (some 80)) .tcp = none :=
  (c7_hasMapping_iff_lookup
      [⟨jstr "0.0.0.0", .num (some 8080), .num (some 80), .tcp⟩]
      (.num (some 80)) .tcp).2 (by decide)

/-- C5 counterexample: a mapper whose single entry maps guest port 80 — the
matching entry exists (at index 0), yet `lookup(80, tcp)` returns not-found. -/
theorem c5_counterexample :
    findGuestPortIndex [⟨jstr "0.0.0.0", .num (some 8080), .num (some 80), .tcp⟩]
        (.num (some 80)) .tcp = some 0 ∧
    getShortPortMapping [⟨jstr "0.0.0.0", .num (some 8080), .num (some 80), .tcp⟩]
        (.num (some 80)) .tcp = none := by
  exact ⟨by decide, by decide⟩

/-- C5 amended: `lookup` returns the first short-form entry whose guest is a
concrete (non-range) port strictly equal to `guestPort` with matching
protocol whenever that first match sits at a positive index; when there is no
match — or when the first match sits at index 0, which the falsy-index test
misreports — it returns not-found (it never raises, being a total function);
range-valued guest endpoints are never matched. -/
theorem c5_lookup_first_positive_match (ports : List ComposePortEntry) (g : PortArg)
    (p : Protocol) :
    (findGuestPortIndex ports g p = none → getShortPortMapping ports g p = none) ∧
    (findGuestPortIndex ports g p = some 0 → getShortPortMapping ports g p = none) ∧
    (∀ i, findGuestPortIndex ports g p = some (i + 1) →
      ∃ e, getShortPortMapping ports g p = some e ∧ ports.get? (i + 1) = some e ∧
        entryMatches e (coercePort g) p = true ∧
        ∀ j a, j ≤ i → ports.get? j = some a → entryMatches a (coercePort g) p = false) ∧
    (∀ e ∈ ports, ∀ r1 r2, e.container = .range r1 r2 →
      entryMatches e (coercePort g) p = false) := by
  refine ⟨?_, ?_, ?_, ?_⟩
  · intro h; simp [getShortPortMapping, h]
  · intro h; simp [getShortPortMapping, h]
  · intro i h
    obtain ⟨e, he, hpe⟩ :=
      jsFindIndex_some_get (p := fun x => entryMatches x (coercePort g) p) h
    refine ⟨e, ?_, he, by simpa using hpe, ?_⟩
    · simp [getShortPortMapping, h]
      simpa using he
    · intro j a hj ha
      simpa using
        jsFindIndex_first (p := fun x => entryMatches x (coercePort g) p) h j a
          (by omega) ha
  · intro e _ r1 r2 hr
    simp [entryMatches, hr]

/-- C5 witness: with the matching entry at index 1, `lookup` returns it
together with the first-match evidence. -/
theorem c5_witness :
    ∃ e, getShortPortMapping
        [⟨jstr "0.0.0.0", .num (some 1), .num (some 9), .tcp⟩,
         ⟨jstr "0.0.0.0", .num (some 8080), .num (some 80), .tcp⟩]
        (.num (some 80)) .tcp = some e ∧
      [⟨jstr "0.0.0.0", .num (some 1), .num (some 9), .tcp⟩,
       ⟨jstr "0.0.0.0", .num (some 8080), .num (some 80), .tcp⟩].get? 1 = some e ∧
      entryMatches e (some 80) .tcp = true ∧
      ∀ j a, j ≤ 0 →
        [⟨jstr "0.0.0.0", .num (some 1), .num (some 9), .tcp⟩,
         ⟨jstr "0.0.0.0", .num (some 8080), .num (some 80), .tcp⟩].get? j = some a →
        entryMatches a (some 80) .tcp = false :=
  (c5_lookup_first_positive_match
      [⟨jstr "0.0.0.0", .num (some 1), .num (some 9), .tcp⟩,
       ⟨jstr "0.0.0.0", .num (some 8080), .num (some 80), .tcp⟩]
      (.num (some 80)) .tcp).2.2.1 0 (by decide)

/-! ### Facts used by the overwrite claim -/

theorem jsGet?_set_self : ∀ (l : List α) (i : Nat) (v : α), i < l.length →
    (l.set i v).get? i = some v
  | _ :: _, 0, _, _ => rfl
  | _ :: t, i + 1, v, h => by
    simpa [List.set] using jsGet?_set_self t i v (by simpa using h)

theorem countP_set_one {p : α → Bool} : ∀ (l : List α) (i : Nat) (v : α),
    jsFindIndex p l = some i → p v = true → l.countP p = 1 →
    (l.set i v).countP p = 1 := by
  intro l
  induction l with
  | nil => intro i v h; simp [jsFindIndex] at h
  | cons a t ih =>
    intro i v h hv hc
    by_cases hpa : p a
    · simp [jsFindIndex, hpa] at h
      subst h
      have ht : t.countP p = 0 := by
        have := List.countP_cons_of_pos p (l := t) (a := a) hpa
        omega
      simp [List.set, List.countP_cons_of_pos, hv, ht]
    · simp [jsFindIndex, hpa] at h
      obtain ⟨i', hi', rfl⟩ := h
      have hpa' : p a = false := by simpa using hpa
      have hc' : t.countP p = 1 := by
        have := List.countP_cons_of_neg p (l := t) (a := a) (by simpa using hpa)
        omega
      have := ih i' v hi' hv hc'
      simp [List.set, List.countP_cons_of_neg, hpa']
      omega

/-- C6 counterexample: the claim's own call shape `setMapping(80, 9090)` (no
options) throws `Invalid constructor call` on a mapper holding `8080:80/tcp`
instead of overwriting; moreover, with options supplied, a mapper that
already holds two entries for `(80, tcp)` keeps two matching entries after an
overwrite, so "exactly one entry" also fails for duplicated mappers. -/
theorem c6_counterexample :
    setShortPortMapping [⟨jstr "0.0.0.0", .num (some 8080), .num (some 80), .tcp⟩]
        (.num (some 80)) (.num (some 9090)) none = .error (jstr "Invalid constructor call") ∧
    (setShortPortMapping
        [⟨jstr "0.0.0.0", .num (some 8080), .num (some 80), .tcp⟩,
         ⟨jstr "0.0.0.0", .num (some 8081), .num (some 80), .tcp⟩]
        (.num (some 80)) (.num (some 9090)) (some ⟨none, .tcp⟩)).map
      (List.countP (fun x => entryMatches x (some 80) .tcp)) = .ok 2 := by
  exact ⟨rfl, rfl⟩

/-- C6 amended: with options supplied (and a non-zero concrete guest port —
otherwise the numeric constructor throws), `setMapping` overwrites the first
existing `(guestPort, protocol)` entry in place: same position, same
collection length; when additionally that mapping was unique, exactly one
matching entry remains; absent any existing mapping, the new entry is
appended at the end. -/
theorem c6_setMapping_overwrite (ports : List ComposePortEntry) (gv hv : Int)
    (o : PortEntryOptions) (hgv : gv ≠ 0) :
    (∀ i, findGuestPortIndex ports (.num (some gv)) o.protocol = some i →
      setShortPortMapping ports (.num (some gv)) (.num (some hv)) (some o) =
        .ok (ports.set i (mkSetEntry hv gv o)) ∧
      i < ports.length ∧
      (ports.set i (mkSetEntry hv gv o)).length = ports.length ∧
      (ports.set i (mkSetEntry hv gv o)).get? i = some (mkSetEntry hv gv o)) ∧
    (findGuestPortIndex ports (.num (some gv)) o.protocol = none →
      setShortPortMapping ports (.num (some gv)) (.num (some hv)) (some o) =
        .ok (ports ++ [mkSetEntry hv gv o])) ∧
    (ports.countP (fun x => entryMatches x (some gv) o.protocol) = 1 →
      ∀ l, setShortPortMapping ports (.num (some gv)) (.num (some hv)) (some o) = .ok l →
        l.countP (fun x => entryMatches x (some gv) o.protocol) = 1 ∧
        l.length = ports.length) := by
  have hok : ComposePortEntry.ofPorts (some hv) (some gv) (some o) =
      .ok (mkSetEntry hv gv o) := by
    simp [ComposePortEntry.ofPorts, jsNumFalsy, hgv, mkSetEntry]
  have hmatch : entryMatches (mkSetEntry hv gv o) (some gv) o.protocol = true := by
    simp [entryMatches, mkSetEntry, jsStrictEq]
  have hsets : ∀ i, findGuestPortIndex ports (.num (some gv)) o.protocol = some i →
      setShortPortMapping ports (.num (some gv)) (.num (some hv)) (some o) =
        .ok (ports.set i (mkSetEntry hv gv o)) := by
    intro i hi
    have hlt := jsFindIndex_some_lt
      (p := fun e => entryMatches e (some gv) o.protocol) hi
    simp only [setShortPortMapping, coercePort]
    rw [hok]
    have h2 : findGuestPortIndex ports (.num (some gv))
        ((Option.map PortEntryOptions.protocol (some o)).getD .tcp) = some i := by
      simpa using hi
    rw [h2]
    simp [jsArraySet, hlt]
  refine ⟨?_, ?_, ?_⟩
  · intro i hi
    have hlt := jsFindIndex_some_lt
      (p := fun e => entryMatches e (some gv) o.protocol) hi
    exact ⟨hsets i hi, hlt, by simp, jsGet?_set_self ports i (mkSetEntry hv gv o) hlt⟩
  · intro hn
    simp only [setShortPortMapping, coercePort]
    rw [hok]
    have h2 : findGuestPortIndex ports (.num (some gv))
        ((Option.map PortEntryOptions.protocol (some o)).getD .tcp) = none := by
      simpa using hn
    rw [h2]
    simp [jsArraySet]
  · intro hc l hl
    have hpos : 0 < ports.countP (fun x => entryMatches x (some gv) o.protocol) := by
      omega
    obtain ⟨a, ha, hpa⟩ := List.countP_pos_iff.mp hpos
    obtain ⟨i, hi⟩ :=
      jsFindIndex_of_mem (p := fun x => entryMatches x (some gv) o.protocol) ha hpa
    rw [hsets i hi] at hl
    injection hl with hl'
    subst hl'
    exact ⟨countP_set_one ports i _ hi hmatch hc, by simp⟩

/-- C6 witness: the spec's overwrite example with explicit tcp options —
`8080:80/tcp` overwritten by `setMapping(80, 9090, tcp)` in place at
position 0, leaving exactly one matching entry. -/
theorem c6_witness :
    setShortPortMapping [⟨jstr "0.0.0.0", .num (some 8080), .num (some 80), .tcp⟩]
        (.num (some 80)) (.num (some 9090)) (some ⟨none, .tcp⟩) =
      .ok ([⟨jstr "0.0.0.0", .num (some 8080), .num (some 80), .tcp⟩].set 0
        (mkSetEntry 9090 80 ⟨none, .tcp⟩)) :=
  ((c6_setMapping_overwrite
      [⟨jstr "0.0.0.0", .num (some 8080), .num (some 80), .tcp⟩]
      80 9090 ⟨none, .tcp⟩ (by decide)).1 0 (by decide)).1

/-! ### Facts about the launch orchestration -/

/-- After the container is running, the only external calls the handler can
still make are the app enumeration and the launch dispatch. -/
theorem launchFromReady_events (env : LaunchEnv) (t : Nat) :
    ∀ e ∈ (launchFromReady env t).2,
      e = LaunchEvent.enumeratedApps ∨ e = LaunchEvent.dispatchedLaunch := by
  intro e he
  unfold launchFromReady at he
  cases hgb : guardBlock env t with
  | none => rw [hgb] at he; simp at he
  | some t1 =>
    rw [hgb] at he
    simp only at he
    unfold launchingApp at he
    cases hhp : env.hostPort with
    | error u => rw [hhp] at he; simp at he
    | ok n =>
      rw [hhp] at he
      simp only at he
      cases hm : env.appMgrPresent with
      | false => rw [hm] at he; simp at he
      | true =>
        rw [hm] at he
        simp only [Bool.not_true, Bool.false_eq_true, if_false] at he
        cases happ : env.apps with
        | error u => rw [happ] at he; simp at he; simp [he]
        | ok apps =>
          rw [happ] at he
          simp only at he
          cases hfa : env.findApp apps with
          | some a =>
            rw [hfa] at he
            simp at he
            rcases he with h | h <;> simp [h]
          | none => rw [hfa] at he; simp at he; simp [he]

/-- An exhausted polling loop: if `isOnline` stays false at every check time,
the loop runs out its full attempt budget. -/
theorem waitLoop_exhaust (online : Nat → Bool) :
    ∀ (fuel t : Nat), (∀ u, t ≤ u → u < t + fuel → online u = false) →
      waitLoop online t fuel = t + fuel := by
  intro fuel
  induction fuel with
  | zero => intro t _; rfl
  | succ f ih =>
    intro t h
    have h0 : online t = false := h t (Nat.le_refl t) (by omega)
    simp only [waitLoop, h0, Bool.false_eq_true, if_false]
    have := ih (t + 1) (fun u hu1 hu2 => h u (by omega) (by omega))
    omega

/-- C1: when a launch is requested with the container paused, the handler
calls the runtime's `unpause` and never calls `start`; `start` is called only
when the status is neither `paused` nor `running`. -/
theorem c1_paused_unpause (env : LaunchEnv) :
    (env.status = .paused →
      LaunchEvent.calledUnpause ∈ (launchRun env).2 ∧
      LaunchEvent.calledStart ∉ (launchRun env).2) ∧
    (LaunchEvent.calledStart ∈ (launchRun env).2 →
      env.status ≠ .paused ∧ env.status ≠ .running) := by
  by_cases hr : env.status = .running
  · constructor
    · intro hp; rw [hp] at hr; cases hr
    · intro hs
      have := launchFromReady_events env 0 _ (by simpa [launchRun, hr] using hs)
      simp at this
  · have hrun : launchRun env =
        (let ev := if env.status = .paused then LaunchEvent.calledUnpause
          else LaunchEvent.calledStart
         let ok := if env.status = .paused then env.unpauseOk else env.startOk
         if ok then
           let t := waitLoop env.onlineAt 0 60
           if env.onlineAt t then
             let rest := launchFromReady env t
             (rest.1, ev :: rest.2)
           else (.cancelled, [ev])
         else (.cancelled, [ev])) := by
      simp [launchRun, hr]
    by_cases hp : env.status = .paused
    · constructor
      · intro _
        rw [hrun]
        simp only [hp, if_true, reduceIte]
        constructor
        · split
          · split
            · simp
            · simp
          · simp
        · split
          · split
            · simp
              intro hmem
              have := launchFromReady_events env (waitLoop env.onlineAt 0 60) _ hmem
              simp at this
            · simp
          · simp
      · intro hs
        exfalso
        rw [hrun] at hs
        simp only [hp, if_true, reduceIte] at hs
        have : LaunchEvent.calledStart = LaunchEvent.calledUnpause ∨
            LaunchEvent.calledStart ∈ (launchFromReady env (waitLoop env.onlineAt 0 60)).2 := by
          revert hs
          split
          · split
            · simp
            · simp
          · simp
        rcases this with h | h
        · cases h
        · have := launchFromReady_events env (waitLoop env.onlineAt 0 60) _ h
          simp at this
    · exact ⟨fun h => absurd h hp, fun _ => ⟨hp, hr⟩⟩

/-- C1 witness: a paused container with an immediately online guest — the
trace contains the `unpause` call and no `start` call. -/
theorem c1_witness :
    LaunchEvent.calledUnpause ∈ (launchRun
      ⟨.paused, true, true, fun _ => true, true, .ok 1,
        .ok [⟨jstr "a", jstr "b"⟩], fun l => l.head?⟩).2 ∧
    LaunchEvent.calledStart ∉ (launchRun
      ⟨.paused, true, true, fun _ => true, true, .ok 1,
        .ok [⟨jstr "a", jstr "b"⟩], fun l => l.head?⟩).2 :=
  (c1_paused_unpause
    ⟨.paused, true, true, fun _ => true, true, .ok 1,
      .ok [⟨jstr "a", jstr "b"⟩], fun l => l.head?⟩).1 rfl

/-- C2: if guest reachability stays false through the polling window (60
one-second attempts — which also covers the 30-attempt readiness loop), the
launch call terminates cancelled and neither the app enumeration nor the app
launch is ever attempted. -/
theorem c2_timeout_no_launch (env : LaunchEnv)
    (h : ∀ t, t ≤ 60 → env.onlineAt t = false) :
    (launchRun env).1 = .cancelled ∧
    LaunchEvent.enumeratedApps ∉ (launchRun env).2 ∧
    LaunchEvent.dispatchedLaunch ∉ (launchRun env).2 := by
  have hg : guardBlock env 0 = none := by
    have h30 : waitLoop env.onlineAt 0 30 = 30 :=
      waitLoop_exhaust env.onlineAt 30 0 (fun u hu1 hu2 => h u (by omega))
    simp only [guardBlock, h 0 (by omega), Bool.and_false]
    simp only [Bool.false_eq_true, if_false, Nat.zero_add] at h30 ⊢
    rw [h30, h 30 (by omega)]
    simp
  by_cases hr : env.status = .running
  · simp [launchRun, hr, launchFromReady, hg]
  · have h60 : waitLoop env.onlineAt 0 60 = 60 :=
      waitLoop_exhaust env.onlineAt 60 0 (fun u hu1 hu2 => h u (by omega))
    simp only [launchRun, hr, if_false]
    simp only [Nat.zero_add] at h60
    rw [h60, h 60 (by omega)]
    split <;> simp

/-- C2 witness: a stopped container whose guest never comes online — the call
is cancelled and no enumeration or dispatch happens. -/
theorem c2_witness :
    (launchRun ⟨.stopped, true, true, fun _ => false, true, .ok 1, .ok [],
      fun _ => none⟩).1 = .cancelled ∧
    LaunchEvent.enumeratedApps ∉ (launchRun
      ⟨.stopped, true, true, fun _ => false, true, .ok 1, .ok [], fun _ => none⟩).2 ∧
    LaunchEvent.dispatchedLaunch ∉ (launchRun
      ⟨.stopped, true, true, fun _ => false, true, .ok 1, .ok [], fun _ => none⟩).2 :=
  c2_timeout_no_launch
    ⟨.stopped, true, true, fun _ => false, true, .ok 1, .ok [], fun _ => none⟩
    (fun _ _ => rfl)

/-! ### String lemmas for the parse/render round trip -/

theorem jsSplit_ne_nil (sep : Char) : ∀ s : JSStr, jsSplit sep s ≠ [] := by
  intro s
  cases s with
  | nil => simp [jsSplit]
  | cons c cs =>
    by_cases hc : c = sep
    · simp [jsSplit, hc]
    · simp only [jsSplit, hc, if_false]
      cases jsSplit sep cs <;> simp

theorem jsSplit_no_sep (sep : Char) : ∀ s : JSStr, sep ∉ s → jsSplit sep s = [s] := by
  intro s
  induction s with
  | nil => intro _; rfl
  | cons c cs ih =>
    intro h
    have hc : ¬ c = sep := fun e => h (by simp [e])
    have hcs := ih (fun m => h (List.mem_cons_of_mem c m))
    simp [jsSplit, hc, hcs]

theorem jsSplit_append (sep : Char) (a b : JSStr) :
    jsSplit sep (a ++ sep :: b) = jsSplit sep a ++ jsSplit sep b := by
  induction a with
  | nil => simp [jsSplit]
  | cons c a' ih =>
    by_cases hc : c = sep
    · subst hc; simp [jsSplit, ih]
    · obtain ⟨s, ss, hss⟩ : ∃ s ss, jsSplit sep a' = s :: ss := by
        cases h : jsSplit sep a' with
        | nil => exact absurd h (jsSplit_ne_nil sep a')
        | cons s ss => exact ⟨s, ss, rfl⟩
      simp [jsSplit, hc, ih, hss]

theorem get?_append_right' : ∀ (A B : List α) (k : Nat),
    (A ++ B).get? (A.length + k) = B.get? k := by
  intro A
  induction A with
  | nil => intro B k; simp
  | cons a t ih =>
    intro B k
    have : (a :: t).length + k = (t.length + k) + 1 := by simp; omega
    rw [this]
    simpa using ih B k

theorem jsAtNeg_one (A : List JSStr) (x y : JSStr) : jsAtNeg (A ++ [x, y]) 1 = y := by
  unfold jsAtNeg
  have hlen : (A ++ [x, y]).length = A.length + 2 := by simp
  rw [hlen, show A.length + 2 - 1 = A.length + 1 from by omega,
    get?_append_right' A [x, y] 1]
  rfl

theorem jsAtNeg_two (A : List JSStr) (x y : JSStr) : jsAtNeg (A ++ [x, y]) 2 = x := by
  unfold jsAtNeg
  have hlen : (A ++ [x, y]).length = A.length + 2 := by simp
  rw [hlen, show A.length + 2 - 2 = A.length + 0 from by omega,
    get?_append_right' A [x, y] 0]
  rfl

theorem jsSubstring_prefix (a r : JSStr) :
    jsSubstring (a ++ r) 0 ((a.length : Nat) : Int) = a := by
  simp only [jsSubstring]
  have hn : (0 : Int) ≤ ((a ++ r).length : Int) := by positivity
  have hle : ((a.length : Nat) : Int) ≤ ((a ++ r).length : Int) := by
    simp
  have h0 : (max 0 (min (0 : Int) ((a ++ r).length : Int))).toNat = 0 := by
    rw [min_eq_left hn, max_self]; rfl
  have h1 : (max 0 (min ((a.length : Nat) : Int) ((a ++ r).length : Int))).toNat
      = a.length := by
    rw [min_eq_left hle, max_eq_right (by positivity)]
    exact Int.toNat_natCast a.length
  rw [h0, h1]
  simp [List.take_left]

/-! ### Digit-string lemmas -/

theorem jsIsDigit_cases {c : Char} (h : jsIsDigit c = true) :
    c = '0' ∨ c = '1' ∨ c = '2' ∨ c = '3' ∨ c = '4' ∨ c = '5' ∨ c = '6' ∨ c = '7' ∨
      c = '8' ∨ c = '9' := by
  have := of_decide_eq_true h
  simpa using this

theorem jsIsDigit_not_special {c : Char} (h : jsIsDigit c = true) :
    c ≠ '-' ∧ c ≠ '+' ∧ c ≠ ':' ∧ c ≠ '/' ∧ c ≠ '[' ∧ Char.isWhitespace c = false := by
  rcases jsIsDigit_cases h with rfl|rfl|rfl|rfl|rfl|rfl|rfl|rfl|rfl|rfl <;> decide

theorem jsDigitVal_lt_ten {c : Char} (h : jsIsDigit c = true) : jsDigitVal c < 10 := by
  rcases jsIsDigit_cases h with rfl|rfl|rfl|rfl|rfl|rfl|rfl|rfl|rfl|rfl <;> decide

theorem digitChar_digit {d : Nat} (h : d < 10) : jsIsDigit (digitChar d) = true := by
  interval_cases d <;> decide

theorem digitChar_val {d : Nat} (h : d < 10) : jsDigitVal (digitChar d) = d := by
  interval_cases d <;> decide

theorem digitChar_ne_zero {d : Nat} (h1 : 1 ≤ d) (h2 : d < 10) : digitChar d ≠ '0' := by
  interval_cases d <;> decide

theorem natDigitsAux_ne_nil : ∀ (fuel n : Nat), n < fuel → natDigitsAux fuel n ≠ [] := by
  intro fuel
  induction fuel with
  | zero => intro n h; omega
  | succ f ih =>
    intro n _
    by_cases h10 : n < 10
    · simp [natDigitsAux, h10]
    · simp [natDigitsAux, h10]

theorem natDigitsAux_digits : ∀ (fuel n : Nat), n < fuel →
    ∀ c ∈ natDigitsAux fuel n, jsIsDigit c = true := by
  intro fuel
  induction fuel with
  | zero => intro n h; omega
  | succ f ih =>
    intro n h c hc
    by_cases h10 : n < 10
    · simp [natDigitsAux, h10] at hc
      subst hc
      exact digitChar_digit h10
    · simp only [natDigitsAux, h10, if_false, List.mem_append, List.mem_singleton] at hc
      rcases hc with hc | hc
      · have hdiv : n / 10 < n := Nat.div_lt_self (by omega) (by omega)
        exact ih (n / 10) (by omega) c hc
      · subst hc
        exact digitChar_digit (Nat.mod_lt _ (by omega))

theorem digitsToNat_append_one (A : JSStr) (c : Char) :
    digitsToNat (A ++ [c]) = digitsToNat A * 10 + jsDigitVal c := by
  simp [digitsToNat, List.foldl_append]

theorem digitsToNat_natDigitsAux : ∀ (fuel n : Nat), n < fuel →
    digitsToNat (natDigitsAux fuel n) = n := by
  intro fuel
  induction fuel with
  | zero => intro n h; omega
  | succ f ih =>
    intro n h
    by_cases h10 : n < 10
    · simp [natDigitsAux, h10, digitsToNat, digitChar_val h10]
    · have hdiv : n / 10 < n := Nat.div_lt_self (by omega) (by omega)
      rw [show natDigitsAux (f + 1) n
          = natDigitsAux f (n / 10) ++ [digitChar (n % 10)] from by
        simp [natDigitsAux, h10]]
      rw [digitsToNat_append_one, ih (n / 10) (by omega),
        digitChar_val (Nat.mod_lt _ (by omega))]
      omega

theorem natDigitsAux_head_ne_zero : ∀ (fuel n : Nat), 1 ≤ n → n < fuel →
    ∀ c, (natDigitsAux fuel n).head? = some c → c ≠ '0' := by
  intro fuel
  induction fuel with
  | zero => intro n _ h; omega
  | succ f ih =>
    intro n h1 h c hc
    by_cases h10 : n < 10
    · simp [natDigitsAux, h10] at hc
      subst hc
      exact digitChar_ne_zero h1 h10
    · rw [show natDigitsAux (f + 1) n
          = natDigitsAux f (n / 10) ++ [digitChar (n % 10)] from by
        simp [natDigitsAux, h10]] at hc
      have hdiv : n / 10 < n := Nat.div_lt_self (by omega) (by omega)
      have hne := natDigitsAux_ne_nil f (n / 10) (by omega)
      obtain ⟨d, rest, hd⟩ : ∃ d rest, natDigitsAux f (n / 10) = d :: rest := by
        cases hx : natDigitsAux f (n / 10) with
        | nil => exact absurd hx hne
        | cons d rest => exact ⟨d, rest, rfl⟩
      rw [hd] at hc
      simp at hc
      subst hc
      exact ih (n / 10) (by omega) (by omega) _ (by rw [hd]; rfl)

theorem natDigits_ne_nil (n : Nat) : natDigits n ≠ [] :=
  natDigitsAux_ne_nil (n + 1) n (by omega)

theorem natDigits_digits (n : Nat) : ∀ c ∈ natDigits n, jsIsDigit c = true :=
  natDigitsAux_digits (n + 1) n (by omega)

theorem digitsToNat_natDigits (n : Nat) : digitsToNat (natDigits n) = n :=
  digitsToNat_natDigitsAux (n + 1) n (by omega)

theorem natDigits_head_ne_zero (n : Nat) (h : 1 ≤ n) :
    ∀ c, (natDigits n).head? = some c → c ≠ '0' :=
  natDigitsAux_head_ne_zero (n + 1) n h (by omega)

theorem takeWhile_all {p : Char → Bool} :
    ∀ {l : JSStr}, (∀ c ∈ l, p c = true) → l.takeWhile p = l := by
  intro l
  induction l with
  | nil => intro _; rfl
  | cons c cs ih =>
    intro h
    simp only [List.takeWhile_cons, h c (by simp), if_true]
    rw [ih (fun x hx => h x (by simp [hx]))]

/-- `Number.parseInt` recovers the value from its own decimal printing. -/
theorem jsParseInt_natDigits (n : Nat) : jsParseInt (natDigits n) = some ((n : Nat) : Int) := by
  obtain ⟨d, rest, hd⟩ : ∃ d rest, natDigits n = d :: rest := by
    cases hx : natDigits n with
    | nil => exact absurd hx (natDigits_ne_nil n)
    | cons d rest => exact ⟨d, rest, rfl⟩
  have hd_dig : jsIsDigit d = true := natDigits_digits n d (by simp [hd])
  obtain ⟨hm, hp, _, _, _, hw⟩ := jsIsDigit_not_special hd_dig
  have hdec : decDigitsPart (d :: rest) = some n := by
    have htake : (d :: rest).takeWhile jsIsDigit = d :: rest := by
      rw [← hd]
      exact takeWhile_all (natDigits_digits n)
    simp only [decDigitsPart, htake]
    rw [if_neg (by simp)]
    rw [← hd, digitsToNat_natDigits]
  have hpart : jsParseNatPart (d :: rest) = some n := by
    cases rest with
    | nil => simpa [jsParseNatPart] using hdec
    | cons c1 r =>
      have hn1 : 1 ≤ n := by
        by_contra hzero
        have : n = 0 := by omega
        subst this
        rw [show natDigits 0 = [ '0'] from rfl] at hd
        simp at hd
      have hd0 : d ≠ '0' := natDigits_head_ne_zero n hn1 d (by rw [hd]; rfl)
      simp only [jsParseNatPart]
      rw [if_neg (by simp [hd0])]
      exact hdec
  have hdrop : (natDigits n).dropWhile Char.isWhitespace = d :: rest := by
    rw [hd, List.dropWhile_cons, hw]
    simp
  simp only [jsParseInt, hdrop]
  rw [if_neg (by simp [hm]), if_neg (by simp [hp]), hpart]
  rfl

/-- Printing a non-negative machine integer is printing its natural value. -/
theorem jsNumToStr_nat (n : Nat) : jsNumToStr (some ((n : Nat) : Int)) = natDigits n := by
  simp [jsNumToStr]

theorem natDigits_no_dash (n : Nat) : '-' ∉ natDigits n :=
  fun hm => absurd (natDigits_digits n '-' hm) (by decide)

theorem natDigits_no_colon (n : Nat) : ':' ∉ natDigits n :=
  fun hm => absurd (natDigits_digits n ':' hm) (by decide)

theorem natDigits_no_slash (n : Nat) : '/' ∉ natDigits n :=
  fun hm => absurd (natDigits_digits n '/' hm) (by decide)

theorem tokStr_ne_nil (t : SpecPortTok) : t.str ≠ [] := by
  cases t with
  | single n => exact natDigits_ne_nil n
  | rangeTok a b => simp [SpecPortTok.str, natDigits_ne_nil a]

theorem tokStr_no_colon (t : SpecPortTok) : ':' ∉ t.str := by
  cases t with
  | single n => exact natDigits_no_colon n
  | rangeTok a b =>
    intro hm
    simp only [SpecPortTok.str, List.mem_append, List.mem_cons] at hm
    rcases hm with h | h | h
    · exact natDigits_no_colon a h
    · cases h
    · exact natDigits_no_colon b h

theorem tokStr_no_slash (t : SpecPortTok) : '/' ∉ t.str := by
  cases t with
  | single n => exact natDigits_no_slash n
  | rangeTok a b =>
    intro hm
    simp only [SpecPortTok.str, List.mem_append, List.mem_cons] at hm
    rcases hm with h | h | h
    · exact natDigits_no_slash a h
    · cases h
    · exact natDigits_no_slash b h

theorem protoStr_no_colon (p : Protocol) : ':' ∉ protoStr p := by
  cases p <;> decide

theorem protoStr_no_slash (p : Protocol) : '/' ∉ protoStr p := by
  cases p <;> decide

/-- `parsePortOrRange` recovers the endpoint a spec token denotes. -/
theorem parsePortOrRange_tok (t : SpecPortTok) : parsePortOrRange t.str = t.val := by
  cases t with
  | single n =>
    simp only [parsePortOrRange, SpecPortTok.str, SpecPortTok.val]
    rw [if_neg (natDigits_no_dash n), jsParseInt_natDigits]
  | rangeTok a b =>
    have hmem : '-' ∈ SpecPortTok.str (.rangeTok a b) := by
      simp [SpecPortTok.str]
    simp only [parsePortOrRange, SpecPortTok.str, SpecPortTok.val] at hmem ⊢
    rw [if_pos hmem]
    simp only [rangeOfToken]
    rw [jsSplit_append '-' (natDigits a) (natDigits b),
      jsSplit_no_sep '-' (natDigits a) (natDigits_no_dash a),
      jsSplit_no_sep '-' (natDigits b) (natDigits_no_dash b)]
    simp [jsParseInt_natDigits]

/-- Rendering the endpoint value of a spec token reproduces the token text. -/
theorem portValStr_tok (t : SpecPortTok) : portValStr t.val = t.str := by
  cases t with
  | single n => simp [portValStr, SpecPortTok.val, SpecPortTok.str, jsNumToStr_nat]
  | rangeTok a b => simp [portValStr, SpecPortTok.val, SpecPortTok.str, jsNumToStr_nat]

/-- Rendering an entry built from spec tokens gives the canonical text. -/
theorem render_entry_tok (ip : JSStr) (t u : SpecPortTok) (p : Protocol) :
    ComposePortEntry.render ⟨ip, t.val, u.val, p⟩ =
      ip ++ ':' :: (t.str ++ ':' :: (u.str ++ '/' :: protoStr p)) := by
  have hu := portValStr_tok u
  simp only [SpecPortTok.val] at hu
  cases t with
  | single n =>
    have ht := portValStr_tok (.single n)
    simp only [SpecPortTok.val] at ht
    simp only [ComposePortEntry.render, SpecPortTok.val]
    rw [hu, ht]
    simp
  | rangeTok a b =>
    have ht := portValStr_tok (.rangeTok a b)
    simp only [SpecPortTok.val] at ht
    simp only [ComposePortEntry.render, SpecPortTok.val]
    rw [hu, ht]
    simp

/-- `parseProtocol` on a text whose only slash introduces the protocol. -/
theorem parseProtocol_concat (front : JSStr) (p : Protocol) (hf : '/' ∉ front) :
    parseProtocol (front ++ '/' :: protoStr p) = .ok p := by
  have hsplit : jsSplit '/' (front ++ '/' :: protoStr p) = [front, protoStr p] := by
    rw [jsSplit_append, jsSplit_no_sep _ _ hf, jsSplit_no_sep _ _ (protoStr_no_slash p)]
    rfl
  simp only [parseProtocol, hsplit]
  cases p <;> rfl

/-- C3 amended: for a syntactically valid four-part entry text whose host IP
is written without brackets and whose host token's first occurrence in the
text is at its own (host) position, parsing succeeds and rendering the parsed
entry reproduces the text exactly. (The bracket-stripping of `[v6]` hosts and
the `indexOf`-based IP extraction are exactly what the counterexample
exhibits; the `/`-freeness and non-bracket hypotheses are consequences of the
host IP being a valid IPv4/IPv6 literal, stated explicitly to keep the
development self-contained.) -/
theorem c3_roundtrip_canonical (ip : JSStr) (t u : SpecPortTok) (p : Protocol) (s : JSStr)
    (hs : s = ip ++ ':' :: (t.str ++ ':' :: (u.str ++ '/' :: protoStr p)))
    (hipv : (isIPv4 ip || isIPv6 ip) = true)
    (hnb : ip.head? ≠ some '[')
    (hsl : '/' ∉ ip)
    (_htok : t.ok) (_hutok : u.ok)
    (hidx : jsIndexOf s t.str = (ip.length : Int) + 1) :
    (ComposePortEntry.parse s).map ComposePortEntry.render = .ok s := by
  have hip_ne : ip ≠ [] := by
    intro h
    rw [h] at hipv
    exact absurd hipv (by decide)
  have htail_nc : ':' ∉ u.str ++ '/' :: protoStr p := by
    intro hm
    rcases List.mem_append.mp hm with h | h
    · exact tokStr_no_colon u h
    · rcases List.mem_cons.mp h with h | h
      · cases h
      · exact protoStr_no_colon p h
  have hsplitColon : jsSplit ':' s =
      jsSplit ':' ip ++ [t.str, u.str ++ '/' :: protoStr p] := by
    rw [hs, jsSplit_append ':' ip (t.str ++ ':' :: (u.str ++ '/' :: protoStr p)),
      jsSplit_append ':' t.str (u.str ++ '/' :: protoStr p),
      jsSplit_no_sep ':' t.str (tokStr_no_colon t),
      jsSplit_no_sep ':' _ htail_nc]
    rfl
  have hA_pos : 1 ≤ (jsSplit ':' ip).length :=
    List.length_pos.mpr (jsSplit_ne_nil ':' ip)
  have hne1 : ¬ ((jsSplit ':' ip ++ [t.str, u.str ++ '/' :: protoStr p]).length = 1) := by
    simp only [List.length_append, List.length_cons, List.length_nil]
    omega
  have hhost : parsePort .HOST s = t.val := by
    simp only [parsePort, hsplitColon]
    rw [if_neg hne1, jsAtNeg_two]
    exact parsePortOrRange_tok t
  have hguest : (jsSplit '/' (jsAtNeg
      (jsSplit ':' ip ++ [t.str, u.str ++ '/' :: protoStr p]) 1)).headD [] = u.str := by
    rw [jsAtNeg_one, jsSplit_append '/' u.str (protoStr p),
      jsSplit_no_sep '/' u.str (tokStr_no_slash u),
      jsSplit_no_sep '/' _ (protoStr_no_slash p)]
    rfl
  have hcont : parsePort .CONTAINER s = u.val := by
    simp only [parsePort, hsplitColon]
    rw [if_neg hne1, hguest]
    exact parsePortOrRange_tok u
  have hfront_ns : '/' ∉ ip ++ ':' :: (t.str ++ ':' :: u.str) := by
    intro hm
    rcases List.mem_append.mp hm with h | h
    · exact hsl h
    · rcases List.mem_cons.mp h with h | h
      · cases h
      · rcases List.mem_append.mp h with h | h
        · exact tokStr_no_slash t h
        · rcases List.mem_cons.mp h with h | h
          · cases h
          · exact tokStr_no_slash u h
  have hproto : parseProtocol s = .ok p := by
    rw [show s = (ip ++ ':' :: (t.str ++ ':' :: u.str)) ++ '/' :: protoStr p from by
      rw [hs]; simp]
    exact parseProtocol_concat _ p hfront_ns
  have hcond : (!isIPv4 ip && !isIPv6 ip) = false := by
    cases h4 : isIPv4 ip <;> cases h6 : isIPv6 ip <;> simp_all
  have hipeq : parseIP s = .ok ip := by
    simp only [parseIP, hsplitColon]
    rw [if_neg (by
      simp only [List.length_append, List.length_cons, List.length_nil]
      omega)]
    rw [jsAtNeg_two]
    rw [if_neg (by
      simp only [List.length_eq_zero]
      exact tokStr_ne_nil t)]
    rw [if_neg (by
      simp only [List.length_eq_zero]
      exact tokStr_ne_nil t)]
    rw [hidx]
    rw [show ((ip.length : Int) + 1) - (1 : Int) = ((ip.length : Nat) : Int) from by ring]
    rw [hs, jsSubstring_prefix ip (':' :: (t.str ++ ':' :: (u.str ++ '/' :: protoStr p)))]
    obtain ⟨c, ip0, hip⟩ : ∃ c ip0, ip = c :: ip0 := by
      cases hx : ip with
      | nil => exact absurd hx hip_ne
      | cons c ip0 => exact ⟨c, ip0, rfl⟩
    have hc : c ≠ '[' := by
      intro h
      apply hnb
      rw [hip, h]
      rfl
    rw [hip]
    simp only
    rw [if_pos hc]
    rw [← hip]
    simp [checkValidIP, hcond]
  have hparse : ComposePortEntry.parse s = .ok ⟨ip, t.val, u.val, p⟩ := by
    simp only [ComposePortEntry.parse, hipeq, hhost, hcont, hproto, Except.bind]
    rfl
  rw [hparse]
  simp only [Except.map]
  rw [render_entry_tok, hs]

/-- C3 witness: the spec's own canonical example `0.0.0.0:8080:80/tcp`
round-trips exactly. -/
theorem c3_witness :
    (ComposePortEntry.parse (jstr "0.0.0.0:8080:80/tcp")).map ComposePortEntry.render =
      .ok (jstr "0.0.0.0:8080:80/tcp") :=
  c3_roundtrip_canonical (jstr "0.0.0.0") (.single 8080) (.single 80) .tcp
    (jstr "0.0.0.0:8080:80/tcp") (by decide) (by decide) (by decide) (by decide)
    ⟨by decide, by decide⟩ ⟨by decide, by decide⟩ (by decide)

/-- C3 counterexample: `[::1]:8080:80/tcp` is a syntactically valid four-part
entry text, yet rendering its parse gives `::1:8080:80/tcp` (the brackets are
stripped), so `render(parse(text)) == text` fails as stated. -/
theorem c3_counterexample :
    specValidFourPartEntry (jstr "[::1]:8080:80/tcp") = true ∧
    (ComposePortEntry.parse (jstr "[::1]:8080:80/tcp")).map ComposePortEntry.render =
      .ok (jstr "::1:8080:80/tcp") ∧
    jstr "::1:8080:80/tcp" ≠ jstr "[::1]:8080:80/tcp" := by
  exact ⟨by decide, rfl, by decide⟩

end Winboat
